import Mathlib

/-!
Verification development for the sec51/cryptoengine repository.

The Go sources are embedded shallowly:

* byte slices and arrays become `List Nat` (one entry per octet);
* the filesystem key store becomes an association list from filename to blob;
* fallible Go functions return `Except GoErr` (or pair a `Option GoErr`
  with their other results, mirroring Go multi-value returns);
* the external NaCl primitives (secretbox, box) and the external HKDF
  stream are outside the repository and are modelled per the spec as
  deterministic symbolic functions: a sealed box records the key, the
  nonce and the plaintext, and opening succeeds exactly when the same
  key and nonce are presented, which is the contract the spec assigns
  to the external AEAD collaborator.
-/

/-- Byte strings are lists of naturals, one entry per octet. -/
abbrev Bytes := List Nat

/-- Error values of the package (cryptoengine.go and fileutils.go), plus
the spec-named keyReadError for the store read helper whose definition is
not under src/, and a fileNotFound stand-in for the I/O error that
ioutil.ReadFile returns on a missing file. -/
inductive GoErr where
  | keySizeError
  | keyNotValidError
  | saltGenerationError
  | keyGenerationError
  | messageDecryptionError
  | messageParsingError
  | messageEmpty
  | messageTooLargeError
  | errExist
  | keyReadError
  | fileNotFound
  | hkdfShortRead
  deriving DecidableEq

/-- Message struct (cryptoengine.go lines 314-319): total length field,
version tag, 24-byte nonce, encrypted payload. The Go types uint64 and
int are modelled as Nat (the values that occur are the non-negative
version tags 0 and 1 and the uint64 length). -/
structure Message where
  length : Nat
  version : Nat
  nonce : Bytes
  message : Bytes
  deriving DecidableEq

/-- Modelled from the spec: bigendian.ToUint64 of the external
sec51/convert package (not under src/) - the 8-byte big-endian rendering
of the 64-bit length header, most significant byte first. -/
def toUint64BE (n : Nat) : Bytes :=
  [n / 2 ^ 56 % 256, n / 2 ^ 48 % 256, n / 2 ^ 40 % 256, n / 2 ^ 32 % 256,
   n / 2 ^ 24 % 256, n / 2 ^ 16 % 256, n / 2 ^ 8 % 256, n % 256]

/-- Modelled from the spec: bigendian.FromUint64 of the external
sec51/convert package (not under src/) - big-endian decoding of 8 bytes. -/
def fromUint64BE (b : Bytes) : Nat :=
  b.foldl (fun acc x => acc * 256 + x) 0

/-- Modelled from the spec: bigendian.ToInt of the external sec51/convert
package (not under src/) - the 4-byte big-endian rendering of the version. -/
def toInt32BE (n : Nat) : Bytes :=
  [n / 2 ^ 24 % 256, n / 2 ^ 16 % 256, n / 2 ^ 8 % 256, n % 256]

/-- Modelled from the spec: bigendian.FromInt of the external sec51/convert
package (not under src/) - big-endian decoding of 4 bytes. -/
def fromInt32BE (b : Bytes) : Nat :=
  b.foldl (fun acc x => acc * 256 + x) 0

/-- Message.ToBytes (cryptoengine.go lines 480-503): serializes length,
version, nonce and ciphertext in that order with no padding. The guard
mirrors the source check of the length field against the uint64 maximum
(the field here is a Nat, so the guard bounds it to the uint64 range). -/
def Message.ToBytes (m : Message) : Except GoErr Bytes :=
  if m.length > 2 ^ 64 - 1 then Except.error GoErr.messageTooLargeError
  else Except.ok (toUint64BE m.length ++ toInt32BE m.version ++ m.nonce ++ m.message)

/-- MessageFromBytes (cryptoengine.go lines 505-548). The parameter is an
Option so that a nil Go slice (checked first in the source) is `none`;
the source then requires at least 8 + 4 + 24 + 1 bytes, slices bytes 0-7
as the big-endian length, 8-11 as the big-endian version, 12-35 as the
nonce and everything from offset 36 on as the ciphertext. The three copy
calls always transfer the full 8, 4 and 24 bytes, so their guards never
fire and the error returned with the parsed message is nil. -/
def MessageFromBytes (data : Option Bytes) : Except GoErr Message :=
  match data with
  | none => Except.error GoErr.messageParsingError
  | some d =>
    if d.length < 8 + 4 + 24 + 1 then Except.error GoErr.messageParsingError
    else Except.ok
      { length := fromUint64BE (d.take 8)
        version := fromInt32BE ((d.drop 8).take 4)
        nonce := (d.drop 12).take 24
        message := d.drop 36 }

/-- Modelled from the spec: box.Precompute of the external NaCl library -
the shared secret of a peer public key and a local private key. It is
represented symbolically by the pair of its inputs (their first 32 bytes
appended), so shared secrets of distinct peer keys are distinct. -/
def precompute (peerPublicKey privateKey : Bytes) : Bytes :=
  peerPublicKey.take 32 ++ privateKey.take 32

/-- Modelled from the spec: secretbox.Seal of the external NaCl library -
a symbolic authenticated ciphertext recording the key, the nonce and the
plaintext. -/
def secretboxSeal (message nonce key : Bytes) : Bytes :=
  key.take 32 ++ nonce.take 24 ++ message

/-- Modelled from the spec: secretbox.Open of the external NaCl library -
opening succeeds exactly when the ciphertext carries the presented key
and nonce, returning the embedded plaintext. -/
def secretboxOpen (box nonce key : Bytes) : Option Bytes :=
  if box.take 32 = key.take 32 ∧ (box.drop 32).take 24 = nonce.take 24 ∧ 56 ≤ box.length
  then some (box.drop 56) else none

/-- Modelled from the spec: box.Seal of the external NaCl library - seals
under the shared secret of the peer public key and the local private key. -/
def boxSeal (message nonce peerPublicKey privateKey : Bytes) : Bytes :=
  precompute peerPublicKey privateKey ++ nonce.take 24 ++ message

/-- Modelled from the spec: box.OpenAfterPrecomputation of the external
NaCl library - opening succeeds exactly when the ciphertext carries the
presented precomputed shared secret and nonce. -/
def openAfterPrecomputation (box nonce sharedKey : Bytes) : Option Bytes :=
  if box.take 64 = sharedKey.take 64 ∧ (box.drop 64).take 24 = nonce.take 24 ∧ 88 ≤ box.length
  then some (box.drop 88) else none

/-- CryptoEngine struct (cryptoengine.go lines 55-65): the identifier
context, the five key-material fields, the cached peer public key, the
precomputed shared key and the flag telling whether the shared key cache
has been initialized. -/
structure CryptoEngine where
  context : String
  publicKey : Bytes
  privateKey : Bytes
  secretKey : Bytes
  peerPublicKey : Bytes
  sharedKey : Bytes
  salt : Bytes
  nonceKey : Bytes
  preSharedInitialized : Bool
  deriving DecidableEq

/-- Modelled from the spec: the external HKDF extract-and-expand primitive
(golang.org/x/crypto/hkdf over SHA-256), abstracted as any deterministic
byte stream produced from the keying secret, the salt and the info label. -/
abbrev HkdfFn := Bytes → Bytes → String → Bytes

/-- Model of the Go expression fmt.Sprintf with verbs %s%d (src/hkdf.go
line 23): the context string followed by the decimal rendering of the
counter. -/
def goSprintfSD (s : String) (n : Nat) : String := s ++ Nat.repr n

/-- deriveNonce (src/hkdf.go lines 15-39): builds the HKDF stream keyed
with the master key, the salt and the info label made of the context and
the decimal counter, then reads exactly nonceSize = 24 bytes from it;
io.ReadFull fails when the stream is shorter. The final copy into the
24-byte array always transfers 24 bytes, so its guard never fires. -/
def deriveNonce (hkdf : HkdfFn) (masterKey salt : Bytes) (context : String)
    (counter : Nat) : Except GoErr Bytes :=
  if (hkdf masterKey salt (goSprintfSD context counter)).length < 24 then
    Except.error GoErr.hkdfShortRead
  else Except.ok ((hkdf masterKey salt (goSprintfSD context counter)).take 24)

/-- Modelled from the spec: the engine-side nonce derivation called with
three arguments at cryptoengine.go lines 342 and 406 (its definition is
not under src/, where hkdf.go holds the counter-taking variant): it reads
24 bytes from the HKDF stream keyed with the nonce key, the salt and the
context. -/
def deriveNonceEngine (hkdf : HkdfFn) (nonceKey salt : Bytes)
    (context : String) : Except GoErr Bytes :=
  if (hkdf nonceKey salt context).length < 24 then
    Except.error GoErr.hkdfShortRead
  else Except.ok ((hkdf nonceKey salt context).take 24)

/-- NewEncryptedMessage (cryptoengine.go lines 327-360): symmetric
encryption. A nil message and a zero-length message both fail with the
empty-message error (collapsed here to the length test, since a nil slice
has length 0). The length field is set, as in the source, to
len(ciphertext) + len(nonce) + 4 + 4. -/
def NewEncryptedMessage (hkdf : HkdfFn) (engine : CryptoEngine)
    (message : Bytes) : Except GoErr Message :=
  if message.length = 0 then Except.error GoErr.messageEmpty
  else
    match deriveNonceEngine hkdf engine.nonceKey engine.salt engine.context with
    | Except.error e => Except.error e
    | Except.ok nonce =>
      let encryptedData := secretboxSeal message nonce engine.secretKey
      Except.ok
        { length := encryptedData.length + nonce.length + 4 + 4
          version := 0
          nonce := nonce
          message := encryptedData }

/-- NewEncryptedMessageWithPubKey (cryptoengine.go lines 365-429):
asymmetric encryption. Validates the message and the peer key (nil,
wrong length, all-zero), then copies the key into the engine, derives
the nonce, precomputes the shared key only when the cache flag is unset,
seals with box.Seal using the peer public key and the private key
directly, and sets the length field, as in the source, to
len(ciphertext) only. Returns the Go result together with the engine
state, since the engine is mutated through its pointer receiver. -/
def NewEncryptedMessageWithPubKey (hkdf : HkdfFn) (engine : CryptoEngine)
    (message : Bytes) (peerPublicKey : Option Bytes) :
    Except GoErr Message × CryptoEngine :=
  if message.length = 0 then (Except.error GoErr.messageEmpty, engine)
  else
    match peerPublicKey with
    | none => (Except.error GoErr.keyNotValidError, engine)
    | some pk =>
      if pk.length ≠ 32 then (Except.error GoErr.keyNotValidError, engine)
      else if pk = List.replicate 32 0 then (Except.error GoErr.keyNotValidError, engine)
      else
        let engine1 := { engine with peerPublicKey := pk.take 32 }
        match deriveNonceEngine hkdf engine1.nonceKey engine1.salt engine1.context with
        | Except.error e => (Except.error e, engine1)
        | Except.ok nonce =>
          let engine2 :=
            if engine1.preSharedInitialized then engine1
            else { engine1 with
                    sharedKey := precompute engine1.peerPublicKey engine1.privateKey
                    preSharedInitialized := true }
          let encryptedData := boxSeal message nonce engine2.peerPublicKey engine2.privateKey
          (Except.ok
             { length := encryptedData.length
               version := 1
               nonce := nonce
               message := encryptedData }, engine2)

/-- decryptWithPreShared (cryptoengine.go lines 469-475): opens the
ciphertext with the precomputed shared key cached on the engine. -/
def decryptWithPreShared (engine : CryptoEngine) (m : Message) :
    Except GoErr Bytes × CryptoEngine :=
  match openAfterPrecomputation m.message m.nonce engine.sharedKey with
  | none => (Except.error GoErr.messageDecryptionError, engine)
  | some pt => (Except.ok pt, engine)

/-- Decrypt (cryptoengine.go lines 431-467): the symmetric branch opens
with the secret key; every other version takes the asymmetric branch,
which rejects a nil key and a key shorter than 32 bytes, copies the
first 32 bytes of the presented key into the engine, precomputes the
shared key only when the cache flag is unset, and opens with the cached
shared key. Returns the Go result together with the engine state. -/
def Decrypt (engine : CryptoEngine) (m : Message)
    (otherPeerPublicKey : Option Bytes) : Except GoErr Bytes × CryptoEngine :=
  if m.version = 0 then
    match secretboxOpen m.message m.nonce engine.secretKey with
    | none => (Except.error GoErr.messageDecryptionError, engine)
    | some pt => (Except.ok pt, engine)
  else
    match otherPeerPublicKey with
    | none => (Except.error GoErr.keyNotValidError, engine)
    | some pk =>
      if pk.length < 32 then (Except.error GoErr.keyNotValidError, engine)
      else
        let engine1 := { engine with peerPublicKey := pk.take 32 }
        if engine1.preSharedInitialized then decryptWithPreShared engine1 m
        else
          let engine2 := { engine1 with
                            sharedKey := precompute engine1.peerPublicKey engine1.privateKey
                            preSharedInitialized := true }
          decryptWithPreShared engine2 m

/-- Key store contents: an association list from filename to blob,
modelling the filesystem blob store behind fileutils.go. -/
abbrev Store := List (String × Bytes)

/-- FileExists (fileutils.go lines 9-12). -/
def FileExists (store : Store) (filename : String) : Bool :=
  (store.lookup filename).isSome

/-- ReadFile (fileutils.go lines 15-17, ioutil.ReadFile): the stored blob
with a nil error, or nil data with an error when the file is missing. -/
def ReadFile (store : Store) (filename : String) : Option Bytes × Option GoErr :=
  match store.lookup filename with
  | some b => (some b, none)
  | none => (none, some GoErr.fileNotFound)

/-- WriteFile (fileutils.go lines 22-36): returns os.ErrExist when the
file already exists, otherwise creates it; storage I/O beyond the
existence check is modelled as always succeeding, per the spec contract
of the external blob store. Returns the Go error and the updated store. -/
def WriteFile (store : Store) (filename : String) (data : Bytes) :
    Option GoErr × Store :=
  if FileExists store filename then (some GoErr.errExist, store)
  else (none, (filename, data) :: store)

/-- ReadKey (fileutils.go lines 38-44): reads the whole file then copies
data[:32] into a 32-byte array, returning the array together with the
ReadFile error. The slice expression data[:32] is a bounds violation when
the data holds fewer than 32 bytes - in particular when ReadFile failed
and returned nil data - and that run-time panic is modelled as `none`.
(ioutil.ReadFile may over-allocate capacity for an existing short file,
in which case the slice succeeds and yields the content zero-padded with
a nil error; under neither reading is an error value produced for a
short existing blob.) -/
def ReadKey (store : Store) (filename : String) :
    Option (Bytes × Option GoErr) :=
  match ReadFile store filename with
  | (some data, e) => if 32 ≤ data.length then some (data.take 32, e) else none
  | (none, _) => none

/-- DeleteFile (fileutils.go lines 47-52): removes the file if present. -/
def DeleteFile (store : Store) (filename : String) : Store :=
  store.filter (fun p => p.1 != filename)

/-- Modelled from the spec: keyFileExists, the existence check used by
the load paths of cryptoengine.go (its definition is not under src/). -/
def keyFileExists (store : Store) (filename : String) : Bool :=
  FileExists store filename

/-- Modelled from the spec: readKey, the store read used by the load
paths of cryptoengine.go (its definition is not under src/): per the
spec key-store contract it returns the first 32 bytes of the named blob
and fails with the key-read error when the blob is absent or holds fewer
than 32 bytes. -/
def readKey (store : Store) (filename : String) : Except GoErr Bytes :=
  match store.lookup filename with
  | none => Except.error GoErr.keyReadError
  | some b =>
    if b.length < 32 then Except.error GoErr.keyReadError
    else Except.ok (b.take 32)

/-- Modelled from the spec: writeKey, the create-if-absent store write
used by the load paths of cryptoengine.go (its definition is not under
src/); per the spec it has the WriteFile semantics. -/
def writeKey (store : Store) (filename : String) (data : Bytes) :
    Option GoErr × Store :=
  WriteFile store filename data

/-- Modelled from the spec: deleteFile, the store delete used by
loadKeyPairs (its definition is not under src/). -/
def deleteFile (store : Store) (filename : String) : Store :=
  DeleteFile store filename

/-- Filename of the symmetric secret key, from the format string
secretSuffixFormat (cryptoengine.go line 41). -/
def secretKeyFile (id : String) : String := id ++ "_secret.key"

/-- Filename of the public key, from the format string
publicKeySuffixFormat (cryptoengine.go line 44). -/
def publicKeyFile (id : String) : String := id ++ "_public.key"

/-- Filename of the private key, from the format string
privateSuffixFormat (cryptoengine.go line 45). -/
def privateKeyFile (id : String) : String := id ++ "_private.key"

/-- generateSecretKey (cryptoengine.go lines 136-148): the 32 random
bytes come from the external random source and are passed in as the
parameter rnd; the copy guard fails with the key-generation error when
fewer than 32 bytes were produced. -/
def generateSecretKey (rnd : Bytes) : Except GoErr Bytes :=
  if rnd.length = 32 then Except.ok rnd
  else Except.error GoErr.keyGenerationError

/-- loadSecretKey (cryptoengine.go lines 180-202): loads the stored key
when its file exists, otherwise generates a fresh key and persists it
with create-if-absent semantics. Returns the Go result and the store. -/
def loadSecretKey (rnd : Bytes) (store : Store) (id : String) :
    Except GoErr Bytes × Store :=
  let keyFile := secretKeyFile id
  if keyFileExists store keyFile then (readKey store keyFile, store)
  else
    match generateSecretKey rnd with
    | Except.error e => (Except.error e, store)
    | Except.ok key =>
      match writeKey store keyFile key with
      | (some e, s) => (Except.error e, s)
      | (none, s) => (Except.ok key, s)

/-- loadKeyPairs (cryptoengine.go lines 233-288): loads the private key
file if it exists; if the public key file exists it loads it and returns
both immediately (the source comment there claims both keys existed);
otherwise it generates a fresh keypair (the pair produced by
box.GenerateKey is passed in as genPub, genPriv), writes the public key
first and then the private key, deleting the public key again when the
private write fails. Returns public key, private key and Go error in the
source order, together with the store. -/
def loadKeyPairs (genPub genPriv : Bytes) (store : Store) (id : String) :
    (Bytes × Bytes × Option GoErr) × Store :=
  let zero32 : Bytes := List.replicate 32 0
  let privateFile := privateKeyFile id
  let publicFile := publicKeyFile id
  let privRes : Except GoErr Bytes :=
    if keyFileExists store privateFile then readKey store privateFile
    else Except.ok zero32
  match privRes with
  | Except.error e => ((zero32, zero32, some e), store)
  | Except.ok priv =>
    if keyFileExists store publicFile then
      match readKey store publicFile with
      | Except.error e => ((zero32, priv, some e), store)
      | Except.ok pub => ((pub, priv, none), store)
    else
      match writeKey store publicFile genPub with
      | (some e, s) => ((genPub, genPriv, some e), s)
      | (none, s) =>
        match writeKey s privateFile genPriv with
        | (some e, s2) => ((genPub, genPriv, some e), deleteFile s2 publicFile)
        | (none, s2) => ((genPub, genPriv, none), s2)

deriving instance DecidableEq for Except

/-- Concrete 32-byte peer public key used in the concrete evaluations. -/
def sampleA : Bytes := List.replicate 32 1

/-- Second concrete 32-byte peer public key, distinct from sampleA. -/
def sampleB : Bytes := List.replicate 32 2

/-- Concrete 32-byte local private key. -/
def samplePriv : Bytes := List.replicate 32 3

/-- Concrete 24-byte nonce. -/
def sampleNonce : Bytes := List.replicate 24 4

/-- Concrete HKDF stream instance: always 24 bytes long. -/
def sampleHkdf : HkdfFn := fun _ _ _ => List.replicate 24 4

/-- Engine whose shared-key cache was initialized from peer key sampleA. -/
def staleEngine : CryptoEngine :=
  { context := "sec51", publicKey := List.replicate 32 0, privateKey := samplePriv,
    secretKey := List.replicate 32 6, peerPublicKey := sampleA,
    sharedKey := precompute sampleA samplePriv, salt := List.replicate 32 0,
    nonceKey := List.replicate 32 0, preSharedInitialized := true }

/-- Asymmetric-tagged message sealed under the shared secret of sampleA. -/
def staleMessage : Message :=
  { length := 0, version := 1, nonce := sampleNonce,
    message := boxSeal [9] sampleNonce sampleA samplePriv }

/-- C1: the claim fails on the code. With the shared secret cached for
peer key sampleA, presenting the different peer key sampleB to Decrypt
does not recompute the shared secret: the engine stores sampleB as the
peer key yet opens - successfully - with the stale shared secret of
sampleA, which differs from the shared secret of sampleB. -/
theorem decrypt_stale_shared_secret :
  (Decrypt staleEngine staleMessage (some sampleB)).1 = Except.ok [9]
  ∧ (Decrypt staleEngine staleMessage (some sampleB)).2.peerPublicKey = sampleB
  ∧ (Decrypt staleEngine staleMessage (some sampleB)).2.sharedKey = precompute sampleA samplePriv
  ∧ precompute sampleA samplePriv ≠ precompute sampleB samplePriv := by
  refine ⟨rfl, by decide, rfl, by decide⟩

/-- Engine with an empty shared-key cache. -/
def freshEngine : CryptoEngine :=
  { context := "sec51", publicKey := List.replicate 32 0, privateKey := samplePriv,
    secretKey := List.replicate 32 6, peerPublicKey := List.replicate 32 0,
    sharedKey := List.replicate 32 0, salt := List.replicate 32 0,
    nonceKey := List.replicate 32 0, preSharedInitialized := false }

/-- A 33-byte peer key whose first 32 bytes are sampleB. -/
def longKey : Bytes := List.replicate 32 2 ++ [7]

/-- Asymmetric-tagged message sealed under the shared secret of sampleB. -/
def longKeyMessage : Message :=
  { length := 0, version := 1, nonce := sampleNonce,
    message := boxSeal [9] sampleNonce sampleB samplePriv }

/-- C2 counterexample: a 33-byte peer key - length different from 32 -
is accepted by the asymmetric decryption path: Decrypt truncates it to
its first 32 bytes and succeeds instead of returning the invalid-key
error. -/
theorem decrypt_accepts_long_key :
  longKey.length = 33
  ∧ (Decrypt freshEngine longKeyMessage (some longKey)).1 = Except.ok [9]
  ∧ (Decrypt freshEngine longKeyMessage (some longKey)).1 ≠ Except.error GoErr.keyNotValidError := by
  refine ⟨by decide, rfl, by decide⟩

/-- Key store holding only the public half of the asymmetric keypair. -/
def publicOnlyStore : Store := [("sec51_public.key", List.replicate 32 5)]

/-- C3: the claim fails on the code, which contradicts its own comment
("it means that both the private and the public key existed"): with only
the public key file in the store, loadKeyPairs returns the stored public
key together with an all-zero private key and a nil error - no
inconsistent-state error is reported. -/
theorem loadkeypairs_public_only_no_error :
  loadKeyPairs (List.replicate 32 7) (List.replicate 32 8) publicOnlyStore "sec51" =
    ((List.replicate 32 5, List.replicate 32 0, none), publicOnlyStore) := by
  decide

/-- Key store holding a 10-byte blob. -/
def shortBlobStore : Store := [("sec51_salt.key", [1, 2, 3, 4, 5, 6, 7, 8, 9, 10])]

/-- C4 counterexample: on a stored blob of 10 bytes, ReadKey aborts (the
slice expression data[:32] is out of bounds, modelled as none) instead of
failing with a key-read error value. -/
theorem readkey_short_blob_aborts :
  ReadKey shortBlobStore "sec51_salt.key" = none := by
  decide

/-- C5: the claim fails on the code, which contradicts its own struct
documentation ("total length of the packet"). On a 1-byte plaintext the
symmetric constructor sets the length field to len(ciphertext) + 32
(here 89, the source adds 4 + 4 instead of the 8 + 4 header bytes) while
the serialized envelope has len(ciphertext) + 36 = 93 bytes, and the
asymmetric constructor sets the length field to len(ciphertext) alone
(here 89) while its envelope has 125 bytes. -/
theorem message_length_field_mismatch :
  (NewEncryptedMessage sampleHkdf freshEngine [9]).map (fun m => m.length) = Except.ok 89
  ∧ (NewEncryptedMessage sampleHkdf freshEngine [9]).map
      (fun m => m.ToBytes.map List.length) = Except.ok (Except.ok 93)
  ∧ (NewEncryptedMessageWithPubKey sampleHkdf freshEngine [9] (some sampleB)).1.map
      (fun m => m.length) = Except.ok 89
  ∧ (NewEncryptedMessageWithPubKey sampleHkdf freshEngine [9] (some sampleB)).1.map
      (fun m => m.ToBytes.map List.length) = Except.ok (Except.ok 125)
  ∧ (89 : Nat) ≠ 93 ∧ (89 : Nat) ≠ 125 := by
  refine ⟨rfl, by decide, rfl, by decide, by decide, by decide⟩

/-- Helper: decryptWithPreShared only ever returns the decryption-failure
error or a plaintext, never the invalid-key error. -/
theorem decryptWithPreShared_ne_keyNotValid (e : CryptoEngine) (m : Message) :
  (decryptWithPreShared e m).1 ≠ Except.error GoErr.keyNotValidError := by
  unfold decryptWithPreShared
  cases openAfterPrecomputation m.message m.nonce e.sharedKey <;> simp

/-- C2 amended: for an asymmetric-tagged message, Decrypt returns the
invalid-key error exactly for a nil peer key or a peer key shorter than
32 bytes; any peer key of length at least 32 - including one longer than
32 bytes - passes validation, only its first 32 bytes are copied into
the engine, and the result is never the invalid-key error. -/
theorem decrypt_asymmetric_key_validation (e : CryptoEngine) (m : Message)
    (k : Option Bytes) (hver : m.version = 1) :
  (k = none → Decrypt e m k = (Except.error GoErr.keyNotValidError, e))
  ∧ (∀ l, k = some l → l.length < 32 →
      Decrypt e m k = (Except.error GoErr.keyNotValidError, e))
  ∧ (∀ l, k = some l → 32 ≤ l.length →
      Decrypt e m k = decryptWithPreShared
        (if e.preSharedInitialized then { e with peerPublicKey := l.take 32 }
         else { e with peerPublicKey := l.take 32
                       sharedKey := precompute (l.take 32) e.privateKey
                       preSharedInitialized := true }) m
      ∧ (Decrypt e m k).1 ≠ Except.error GoErr.keyNotValidError) := by
  refine ⟨?_, ?_, ?_⟩
  · rintro rfl
    simp [Decrypt, hver]
  · rintro l rfl hl
    simp [Decrypt, hver, hl]
  · rintro l rfl hl
    have hnl : ¬ l.length < 32 := Nat.not_lt.mpr hl
    have heq : Decrypt e m (some l) = decryptWithPreShared
        (if e.preSharedInitialized then { e with peerPublicKey := l.take 32 }
         else { e with peerPublicKey := l.take 32
                       sharedKey := precompute (l.take 32) e.privateKey
                       preSharedInitialized := true }) m := by
      by_cases h : e.preSharedInitialized <;> simp [Decrypt, hver, hnl, h]
    refine ⟨heq, ?_⟩
    rw [heq]
    exact decryptWithPreShared_ne_keyNotValid _ m

/-- Witness for the C2 amended theorem at concrete inputs: a nil key and
a 3-byte key are both rejected with the invalid-key error. -/
theorem decrypt_asymmetric_key_validation_witness :
  Decrypt freshEngine longKeyMessage none =
    (Except.error GoErr.keyNotValidError, freshEngine)
  ∧ Decrypt freshEngine longKeyMessage (some [1, 2, 3]) =
    (Except.error GoErr.keyNotValidError, freshEngine) :=
  ⟨(decrypt_asymmetric_key_validation freshEngine longKeyMessage none rfl).1 rfl,
   (decrypt_asymmetric_key_validation freshEngine longKeyMessage
      (some [1, 2, 3]) rfl).2.1 [1, 2, 3] rfl (by decide)⟩

/-- C4 amended: when the named blob exists with at least 32 bytes,
ReadKey returns its first 32 bytes together with a nil error; when the
existing blob holds fewer than 32 bytes, the slice expression data[:32]
aborts (modelled as none) instead of producing a key-read error value. -/
theorem readkey_first_32_bytes (store : Store) (filename : String)
    (b : Bytes) (hb : store.lookup filename = some b) :
  (32 ≤ b.length → ReadKey store filename = some (b.take 32, none))
  ∧ (b.length < 32 → ReadKey store filename = none) := by
  unfold ReadKey ReadFile
  rw [hb]
  constructor
  · intro h
    simp [h]
  · intro h
    simp [Nat.not_le.mpr h]

/-- Witness for the C4 amended theorem at a concrete input: a 40-byte
blob is truncated to its first 32 bytes. -/
theorem readkey_first_32_bytes_witness :
  ReadKey [("sec51_nonce.key", List.replicate 40 9)] "sec51_nonce.key" =
    some ((List.replicate 40 9).take 32, none) :=
  (readkey_first_32_bytes [("sec51_nonce.key", List.replicate 40 9)]
    "sec51_nonce.key" (List.replicate 40 9) (by decide)).1 (by decide)

/-- C7: MessageFromBytes fails with the parsing error exactly when the
input is nil or shorter than 37 bytes; on every input of at least 37
bytes it succeeds, reading the big-endian length from bytes 0-7, the
big-endian version from bytes 8-11, the nonce from bytes 12-35 and the
whole remainder from offset 36 as the ciphertext, regardless of the
value carried by the embedded length field. -/
theorem messageFromBytes_spec (data : Option Bytes) :
  (MessageFromBytes data = Except.error GoErr.messageParsingError ↔
     data = none ∨ ∃ d, data = some d ∧ d.length < 37)
  ∧ (∀ d, data = some d → 37 ≤ d.length →
      MessageFromBytes data = Except.ok
        { length := fromUint64BE (d.take 8)
          version := fromInt32BE ((d.drop 8).take 4)
          nonce := (d.drop 12).take 24
          message := d.drop 36 }) := by
  constructor
  · cases data with
    | none => simp [MessageFromBytes]
    | some d =>
      by_cases h : d.length < 37
      · rw [MessageFromBytes, if_pos (by omega)]
        constructor
        · intro _
          exact Or.inr ⟨d, rfl, h⟩
        · intro _
          rfl
      · rw [MessageFromBytes, if_neg (by omega)]
        constructor
        · intro hc
          exact Except.noConfusion hc
        · rintro (hn | ⟨d2, hd2, hlen⟩)
          · exact Option.noConfusion hn
          · injection hd2 with hd2
            subst hd2
            omega
  · rintro d rfl h
    rw [MessageFromBytes, if_neg (by omega)]

/-- Witness for the C7 theorem at concrete inputs: nil input and a
10-byte input fail with the parsing error, and a 37-byte input parses
into its header fields and 1-byte ciphertext. -/
theorem messageFromBytes_spec_witness :
  MessageFromBytes none = Except.error GoErr.messageParsingError
  ∧ MessageFromBytes (some (List.replicate 10 1)) = Except.error GoErr.messageParsingError
  ∧ MessageFromBytes (some (List.replicate 37 1)) = Except.ok
      { length := fromUint64BE ((List.replicate 37 1).take 8)
        version := fromInt32BE (((List.replicate 37 1).drop 8).take 4)
        nonce := ((List.replicate 37 1).drop 12).take 24
        message := (List.replicate 37 1).drop 36 } :=
  ⟨(messageFromBytes_spec none).1.mpr (Or.inl rfl),
   (messageFromBytes_spec (some (List.replicate 10 1))).1.mpr
     (Or.inr ⟨List.replicate 10 1, rfl, by decide⟩),
   (messageFromBytes_spec (some (List.replicate 37 1))).2
     (List.replicate 37 1) rfl (by decide)⟩

/-- Helper: the serialized length header is 8 bytes long. -/
theorem length_toUint64BE (n : Nat) : (toUint64BE n).length = 8 := rfl

/-- Helper: the serialized version header is 4 bytes long. -/
theorem length_toInt32BE (n : Nat) : (toInt32BE n).length = 4 := rfl

/-- C6: for every Message whose version is 0 or 1, whose nonce is any
24-byte value and whose ciphertext has length between 1 and 10000 (and
whose length field is in the uint64 range, as the Go field type imposes),
serializing with ToBytes and parsing back with MessageFromBytes succeeds
and reproduces the version, the nonce and the ciphertext exactly. -/
theorem message_codec_roundtrip (m : Message)
    (hlen : m.length < 2 ^ 64) (hver : m.version = 0 ∨ m.version = 1)
    (hn : m.nonce.length = 24) (hc1 : 1 ≤ m.message.length)
    (hc2 : m.message.length ≤ 10000) :
  ∃ bs m2, m.ToBytes = Except.ok bs ∧ MessageFromBytes (some bs) = Except.ok m2
    ∧ m2.version = m.version ∧ m2.nonce = m.nonce ∧ m2.message = m.message := by
  have hassoc : toUint64BE m.length ++ toInt32BE m.version ++ m.nonce ++ m.message =
      toUint64BE m.length ++ (toInt32BE m.version ++ (m.nonce ++ m.message)) := by
    simp [List.append_assoc]
  have hbs : (toUint64BE m.length ++ toInt32BE m.version ++ m.nonce ++ m.message).length =
      36 + m.message.length := by
    simp [List.length_append, length_toUint64BE, length_toInt32BE, hn]
    omega
  have hdrop8 : (toUint64BE m.length ++ toInt32BE m.version ++ m.nonce ++ m.message).drop 8 =
      toInt32BE m.version ++ (m.nonce ++ m.message) := by
    rw [hassoc]
    exact List.drop_left' (length_toUint64BE m.length)
  have hdrop12 : (toUint64BE m.length ++ toInt32BE m.version ++ m.nonce ++ m.message).drop 12 =
      m.nonce ++ m.message := by
    have h4 : (toUint64BE m.length ++ toInt32BE m.version ++ m.nonce ++ m.message).drop 12 =
        ((toUint64BE m.length ++ toInt32BE m.version ++ m.nonce ++ m.message).drop 8).drop 4 := by
      rw [List.drop_drop]
    rw [h4, hdrop8]
    exact List.drop_left' (length_toInt32BE m.version)
  have hdrop36 : (toUint64BE m.length ++ toInt32BE m.version ++ m.nonce ++ m.message).drop 36 =
      m.message := by
    have h24 : (toUint64BE m.length ++ toInt32BE m.version ++ m.nonce ++ m.message).drop 36 =
        ((toUint64BE m.length ++ toInt32BE m.version ++ m.nonce ++ m.message).drop 12).drop 24 := by
      rw [List.drop_drop]
    rw [h24, hdrop12]
    exact List.drop_left' hn
  refine ⟨toUint64BE m.length ++ toInt32BE m.version ++ m.nonce ++ m.message,
          { length := fromUint64BE ((toUint64BE m.length ++ toInt32BE m.version ++ m.nonce ++ m.message).take 8)
            version := fromInt32BE (((toUint64BE m.length ++ toInt32BE m.version ++ m.nonce ++ m.message).drop 8).take 4)
            nonce := ((toUint64BE m.length ++ toInt32BE m.version ++ m.nonce ++ m.message).drop 12).take 24
            message := (toUint64BE m.length ++ toInt32BE m.version ++ m.nonce ++ m.message).drop 36 },
          ?_, ?_, ?_, ?_, ?_⟩
  · unfold Message.ToBytes
    rw [if_neg (by omega)]
  · rw [MessageFromBytes, if_neg (by omega)]
  · show fromInt32BE (((toUint64BE m.length ++ toInt32BE m.version ++ m.nonce ++ m.message).drop 8).take 4) = m.version
    rw [hdrop8, List.take_left' (length_toInt32BE m.version)]
    rcases hver with h | h <;> rw [h] <;> decide
  · show ((toUint64BE m.length ++ toInt32BE m.version ++ m.nonce ++ m.message).drop 12).take 24 = m.nonce
    rw [hdrop12, List.take_left' hn]
  · exact hdrop36

/-- Witness for the C6 theorem at a concrete message: version 1, a
24-byte nonce of fives and a 1-byte ciphertext. -/
theorem message_codec_roundtrip_witness :
  ∃ bs m2, (Message.mk 0 1 (List.replicate 24 5) [7]).ToBytes = Except.ok bs
    ∧ MessageFromBytes (some bs) = Except.ok m2
    ∧ m2.version = (Message.mk 0 1 (List.replicate 24 5) [7]).version
    ∧ m2.nonce = (Message.mk 0 1 (List.replicate 24 5) [7]).nonce
    ∧ m2.message = (Message.mk 0 1 (List.replicate 24 5) [7]).message :=
  message_codec_roundtrip (Message.mk 0 1 (List.replicate 24 5) [7])
    (by norm_num) (Or.inr rfl) (by decide) (by decide) (by decide)

/-- C8: deriveNonce is a deterministic function of its four inputs. Any
successful result equals the first 24 bytes of the HKDF stream keyed with
the master key and the salt under the info label obtained by
concatenating the context with the decimal rendering of the counter, has
exactly 24 bytes, and a second call with identical arguments returns the
identical nonce. This holds for every instantiation of the external HKDF
primitive, so it follows from the structure of the wrapper alone. -/
theorem deriveNonce_hkdf_spec (hkdf : HkdfFn) (masterKey salt : Bytes)
    (context : String) (counter : Nat) (v : Bytes)
    (hv : deriveNonce hkdf masterKey salt context counter = Except.ok v) :
  v = (hkdf masterKey salt (context ++ Nat.repr counter)).take 24
  ∧ v.length = 24
  ∧ goSprintfSD context counter = context ++ Nat.repr counter
  ∧ ∀ c2 n2, c2 = context → n2 = counter →
      deriveNonce hkdf masterKey salt c2 n2 = Except.ok v := by
  unfold deriveNonce at hv
  by_cases h : (hkdf masterKey salt (goSprintfSD context counter)).length < 24
  · rw [if_pos h] at hv
    exact Except.noConfusion hv
  · rw [if_neg h] at hv
    injection hv with hv
    refine ⟨?_, ?_, rfl, ?_⟩
    · rw [← hv]
      rfl
    · rw [← hv, List.length_take]
      omega
    · rintro c2 n2 rfl rfl
      unfold deriveNonce
      rw [if_neg h, hv]

/-- Witness for the C8 theorem at concrete inputs: the constant sample
HKDF stream with empty keys, empty context and counter 0. -/
theorem deriveNonce_hkdf_spec_witness :
  List.replicate 24 4 = (sampleHkdf [] [] ("" ++ Nat.repr 0)).take 24
  ∧ (List.replicate 24 4 : Bytes).length = 24
  ∧ goSprintfSD "" 0 = "" ++ Nat.repr 0
  ∧ ∀ c2 n2, c2 = "" → n2 = 0 →
      deriveNonce sampleHkdf [] [] c2 n2 = Except.ok (List.replicate 24 4) :=
  deriveNonce_hkdf_spec sampleHkdf [] [] "" 0 (List.replicate 24 4) (by decide)

/-- C9: key-file creation is at-most-once per name. On a store without
the file, WriteFile creates it; a second WriteFile of the same name then
fails with the already-exists error and leaves the store unchanged;
while loadSecretKey, the load-or-create path, transparently loads an
existing stored secret key instead of failing. -/
theorem key_creation_at_most_once
    (store : Store) (filename : String) (data data2 : Bytes)
    (hnew : FileExists store filename = false)
    (store2 : Store) (id : String) (b rnd : Bytes)
    (hb : store2.lookup (secretKeyFile id) = some b) (hlen : 32 ≤ b.length) :
  WriteFile store filename data = (none, (filename, data) :: store)
  ∧ WriteFile ((filename, data) :: store) filename data2 =
      (some GoErr.errExist, (filename, data) :: store)
  ∧ loadSecretKey rnd store2 id = (Except.ok (b.take 32), store2) := by
  refine ⟨?_, ?_, ?_⟩
  · unfold WriteFile
    rw [hnew]
    simp
  · unfold WriteFile FileExists
    simp [List.lookup]
  · have hex : keyFileExists store2 (secretKeyFile id) = true := by
      unfold keyFileExists FileExists
      rw [hb]
      rfl
    unfold loadSecretKey
    rw [if_pos hex]
    unfold readKey
    rw [hb]
    simp [Nat.not_lt.mpr hlen]

/-- Witness for the C9 theorem at concrete inputs: creating a key file
twice on an empty store, and loading an existing 32-byte secret key. -/
theorem key_creation_at_most_once_witness :
  WriteFile [] "sec51_public.key" [1] = (none, [("sec51_public.key", [1])])
  ∧ WriteFile [("sec51_public.key", [1])] "sec51_public.key" [2] =
      (some GoErr.errExist, [("sec51_public.key", [1])])
  ∧ loadSecretKey (List.replicate 32 1)
      [("sec51_secret.key", List.replicate 32 9)] "sec51" =
      (Except.ok ((List.replicate 32 9).take 32),
       [("sec51_secret.key", List.replicate 32 9)]) :=
  key_creation_at_most_once [] "sec51_public.key" [1] [2] (by decide)
    [("sec51_secret.key", List.replicate 32 9)] "sec51" (List.replicate 32 9)
    (List.replicate 32 1) (by decide) (by decide)

/-- C10: Decrypt of an asymmetric-tagged message is not atomic on
failure. Whenever the authentication check fails on the shared key the
call will use, Decrypt returns the decryption-failure error yet the
returned engine already carries the presented peer key, and - when no
shared secret was cached before - the freshly precomputed shared key and
the set cache flag; when the presented key differs from the cached peer
key, the engine state after the failed call differs from the state
before it. -/
theorem decrypt_failure_mutates_state (e : CryptoEngine) (m : Message) (pk : Bytes)
    (hver : m.version = 1) (hk : pk.length = 32) (hne : pk ≠ e.peerPublicKey)
    (hopen : openAfterPrecomputation m.message m.nonce
        (if e.preSharedInitialized then e.sharedKey
         else precompute pk e.privateKey) = none) :
  Decrypt e m (some pk) =
    (Except.error GoErr.messageDecryptionError,
      { e with peerPublicKey := pk
               sharedKey := if e.preSharedInitialized then e.sharedKey
                            else precompute pk e.privateKey
               preSharedInitialized := true })
  ∧ (Decrypt e m (some pk)).2 ≠ e := by
  have htake : pk.take 32 = pk := by
    rw [← hk]
    exact List.take_length pk
  have hnl : ¬ pk.length < 32 := by omega
  obtain ⟨cx, pbk, pvk, sck, ppk, shk, sl, nk, flag⟩ := e
  have hmain : Decrypt ⟨cx, pbk, pvk, sck, ppk, shk, sl, nk, flag⟩ m (some pk) =
      (Except.error GoErr.messageDecryptionError,
        { context := cx, publicKey := pbk, privateKey := pvk, secretKey := sck,
          peerPublicKey := pk,
          sharedKey := if flag then shk else precompute pk pvk,
          salt := sl, nonceKey := nk, preSharedInitialized := true }) := by
    cases flag with
    | true =>
      rw [if_pos rfl] at hopen
      simp [Decrypt, hver, hnl, htake, decryptWithPreShared, hopen]
    | false =>
      rw [if_neg (by simp)] at hopen
      simp [Decrypt, hver, hnl, htake, decryptWithPreShared, hopen]
  refine ⟨hmain, ?_⟩
  rw [hmain]
  intro heq
  apply hne
  have hfield := congrArg CryptoEngine.peerPublicKey heq
  simpa using hfield

/-- Asymmetric-tagged message with an empty ciphertext, which no key can
open. -/
def failMsg : Message :=
  { length := 0, version := 1, nonce := sampleNonce, message := [] }

/-- Witness for the C10 theorem at concrete inputs: the engine whose
cache holds the shared secret of sampleA, presented with sampleB on a
message that fails authentication. -/
theorem decrypt_failure_mutates_state_witness :
  Decrypt staleEngine failMsg (some sampleB) =
    (Except.error GoErr.messageDecryptionError,
      { staleEngine with
          peerPublicKey := sampleB
          sharedKey := if staleEngine.preSharedInitialized then staleEngine.sharedKey
                       else precompute sampleB staleEngine.privateKey
          preSharedInitialized := true })
  ∧ (Decrypt staleEngine failMsg (some sampleB)).2 ≠ staleEngine :=
  decrypt_failure_mutates_state staleEngine failMsg sampleB rfl (by decide)
    (by decide) (by decide)
